import Mathlib

/-!
Shallow embedding of `EmbeddedProto`'s fixed-width field codec
(`src/FieldFixed.h`, class `Detail::FieldFixed<WIRE_TYPE, DATA_TYPE>`).

A stored value of `DATA_TYPE` is embedded as its W-bit pattern, a natural
number below `2 ^ W` (W = 32 or 64).  The source's pointer casts between
`DATA_TYPE` and `VAR_UINT_TYPE` are a bit-pattern view, hence the identity on
this representation; the semantic kind (unsigned, signed, float) only enters
through the default-window comparison, which is embedded per kind.
-/

namespace EmbeddedProto

/-- Outcome type of the base `Field` class.  Modelled from the spec: `Field.h`
is not among the sources; the spec lists success and buffer-too-small
outcomes, and both failure sites in `FieldFixed.h` name the single enumerator
`Result::ERROR_BUFFER_TO_SMALL`. -/
inductive Result where
  | OK : Result
  | ERROR_BUFFER_TO_SMALL : Result
deriving DecidableEq

/-- Bounded byte buffer.  Modelled from the spec: `MessageBufferInterface` is
not among the sources.  Per spec §2/§6 it holds an ordered byte sequence and
exposes single-byte push (fails when at capacity), single-byte pop (fails when
empty), current size, and remaining write capacity.  `bytes` is the current
contents (head = next byte to pop), `free` the remaining write capacity. -/
structure MessageBufferInterface where
  bytes : List Nat
  free : Nat
deriving DecidableEq

/-- Append one byte; fails when no write capacity remains. -/
def MessageBufferInterface.push (buf : MessageBufferInterface) (b : Nat) :
    Bool × MessageBufferInterface :=
  if 0 < buf.free then (true, ⟨buf.bytes ++ [b], buf.free - 1⟩) else (false, buf)

/-- Remove the front byte; fails when the buffer is empty. -/
def MessageBufferInterface.pop (buf : MessageBufferInterface) :
    Bool × Nat × MessageBufferInterface :=
  match buf.bytes with
  | [] => (false, 0, buf)
  | b :: rest => (true, b, ⟨rest, buf.free⟩)

/-- Query `get_size()`: the number of bytes currently held. -/
def MessageBufferInterface.get_size (buf : MessageBufferInterface) : Nat :=
  buf.bytes.length

/-- Query `get_max_size()`: the capacity bound used in `FieldFixed::serialize`'s
pre-check.  Modelled from the spec: §4.1 step 2 compares the pre-computed total
size against the buffer's remaining capacity. -/
def MessageBufferInterface.get_max_size (buf : MessageBufferInterface) : Nat :=
  buf.free

/-- The six concrete instantiations of `Detail::FieldFixed` declared at the end
of `FieldFixed.h` (wire width 32/64 crossed with unsigned, signed, float). -/
inductive FieldKind where
  | fixed32 | sfixed32 | float32 | fixed64 | sfixed64 | double64
deriving DecidableEq

/-- Bit width of `VAR_UINT_TYPE` (`std::numeric_limits<VAR_UINT_TYPE>::digits`). -/
def width : FieldKind → Nat
  | .fixed32 | .sfixed32 | .float32 => 32
  | .fixed64 | .sfixed64 | .double64 => 64

/-- Constant `N_BYTES_IN_FIXED`: `digits(VAR_UINT_TYPE) / digits(uint8_t)`. -/
def N_BYTES_IN_FIXED (k : FieldKind) : Nat := width k / 8

/-- Wire-type discriminant of the field.  Modelled from the spec: the
`WireType` enumeration lives in the base field header; the two fixed-width
discriminants carry the standard protobuf values FIXED64 = 1, FIXED32 = 5. -/
def wire_type : FieldKind → Nat
  | .fixed32 | .sfixed32 | .float32 => 5
  | .fixed64 | .sfixed64 | .double64 => 1

/-- Method `Field::tag()`.  Modelled from the spec: a tag value derived from
the field number and the wire-type discriminant, combined in the standard
protobuf way `(number << 3) | wire_type`. -/
def tag (k : FieldKind) (number : Nat) : Nat :=
  (number <<< 3) ||| wire_type k

/-- Two's-complement reading of a `w`-bit pattern: the value of `VAR_INT_TYPE`. -/
def toInt (w : Nat) (v : Nat) : Int :=
  if v < 2 ^ (w - 1) then (v : Int) else (v : Int) - 2 ^ w

/-- IEEE-754 NaN test on a 32-bit pattern: exponent all ones, mantissa nonzero. -/
def f32_isNaN (b : Nat) : Bool :=
  ((b >>> 23) &&& 255) == 255 && (b &&& 0x7FFFFF) != 0

/-- Ordering key of an IEEE-754 single-precision pattern: the sign-magnitude
reading.  For non-NaN floats IEEE ordering coincides with this key order, with
`-0.0` and `+0.0` both mapping to key 0. -/
def f32_key (b : Nat) : Int :=
  if (b >>> 31) &&& 1 == 1 then -((b &&& 0x7FFFFFFF : Nat) : Int)
  else ((b &&& 0x7FFFFFFF : Nat) : Int)

/-- The C++ comparison `a <= b` at type `float`, acting on bit patterns; false
whenever a NaN is involved. -/
def f32_le (a b : Nat) : Bool :=
  !f32_isNaN a && !f32_isNaN b && decide (f32_key a ≤ f32_key b)

/-- IEEE-754 NaN test on a 64-bit pattern: exponent all ones, mantissa nonzero. -/
def f64_isNaN (b : Nat) : Bool :=
  ((b >>> 52) &&& 2047) == 2047 && (b &&& 0xFFFFFFFFFFFFF) != 0

/-- Ordering key of an IEEE-754 double-precision pattern (sign-magnitude). -/
def f64_key (b : Nat) : Int :=
  if (b >>> 63) &&& 1 == 1 then -((b &&& 0x7FFFFFFFFFFFFFFF : Nat) : Int)
  else ((b &&& 0x7FFFFFFFFFFFFFFF : Nat) : Int)

/-- The C++ comparison `a <= b` at type `double`, acting on bit patterns. -/
def f64_le (a b : Nat) : Bool :=
  !f64_isNaN a && !f64_isNaN b && decide (f64_key a ≤ f64_key b)

/-- The C++ comparison `a <= b` at `DATA_TYPE`, acting on bit patterns: plain
order for the unsigned kinds, two's-complement order for the signed kinds,
IEEE-754 order for the float kinds. -/
def data_le (k : FieldKind) (a b : Nat) : Bool :=
  match k with
  | .fixed32 | .fixed64 => decide (a ≤ b)
  | .sfixed32 => decide (toInt 32 a ≤ toInt 32 b)
  | .sfixed64 => decide (toInt 64 a ≤ toInt 64 b)
  | .float32 => f32_le a b
  | .double64 => f64_le a b

/-- Bit pattern of `DEFAULT_VALUE + std::numeric_limits<DATA_TYPE>::epsilon()`.
The integer epsilons are 0, so the sum is 0.  `FLT_EPSILON = 2^-23` has biased
exponent `127 - 23 = 104`, pattern `104 <<< 23 = 0x34000000`; `DBL_EPSILON =
2^-52` has biased exponent `1023 - 52 = 971`, pattern `0x3CB0000000000000`.
Adding epsilon to zero is exact, so the sum's pattern is epsilon's pattern. -/
def default_plus_epsilon : FieldKind → Nat
  | .fixed32 | .sfixed32 | .fixed64 | .sfixed64 => 0
  | .float32 => 0x34000000
  | .double64 => 0x3CB0000000000000

/-- Bit pattern of `DEFAULT_VALUE - epsilon`: 0 for the integer kinds (their
epsilon is 0), and the epsilon pattern with the sign bit set for the float
kinds (subtracting epsilon from zero is exact). -/
def default_minus_epsilon : FieldKind → Nat
  | .fixed32 | .sfixed32 | .fixed64 | .sfixed64 => 0
  | .float32 => 0xB4000000
  | .double64 => 0xBCB0000000000000

/-- The elision test of `FieldFixed::serialize`:
`((DEFAULT_VALUE + epsilon) >= _data) && ((DEFAULT_VALUE - epsilon) <= _data)`. -/
def default_window (k : FieldKind) (v : Nat) : Bool :=
  data_le k v (default_plus_epsilon k) && data_le k (default_minus_epsilon k) v

/-- Helper for `varintBytes`: structural recursion on a fuel bound.  The value
shrinks by a factor of 128 at each step, so any fuel at least the value makes
the fuel-exhausted branch unreachable (and that branch agrees with the base
case whenever it could fire with correct fuel). -/
def varintBytesAux (fuel n : Nat) : List Nat :=
  match fuel with
  | 0 => [n]
  | fuel' + 1 => if n < 128 then [n] else (n % 128 + 128) :: varintBytesAux fuel' (n / 128)

/-- Little-endian base-128 bytes of a varint.  Modelled from the spec: the tag
is serialized by the base class with a separate variable-length encoding, the
standard protobuf varint. -/
def varintBytes (n : Nat) : List Nat :=
  varintBytesAux n n

/-- Little-endian base-256 digits of `u`, `fuel` bytes long: the byte list that
the fixed-width packing of §4.2 produces (proved below). -/
def leBytes : Nat → Nat → List Nat
  | 0, _ => []
  | fuel + 1, u => (u % 256) :: leBytes fuel (u / 256)

/-- Push a list of bytes one at a time, stopping at the first failed push. -/
def pushBytes (l : List Nat) (buf : MessageBufferInterface) :
    Bool × MessageBufferInterface :=
  match l with
  | [] => (true, buf)
  | b :: rest =>
    match buf.push b with
    | (true, buf') => pushBytes rest buf'
    | (false, buf') => (false, buf')

/-- Method `Field::_serialize_varint`: write the tag bytes into the buffer.
Modelled from the spec: implemented by the base class, called by this core. -/
def _serialize_varint (value : Nat) (buf : MessageBufferInterface) :
    Bool × MessageBufferInterface :=
  pushBytes (varintBytes value) buf

/-- Method `FieldFixed::serialized_data_size()`: returns `N_BYTES_IN_FIXED`. -/
def serialized_data_size (k : FieldKind) : Nat := N_BYTES_IN_FIXED k

/-- Method `Field::serialized_size()`.  Modelled from the spec: the total size
needed is the tag bytes plus `serialized_data_size()`. -/
def serialized_size (k : FieldKind) (number : Nat) : Nat :=
  (varintBytes (tag k number)).length + serialized_data_size k

/-- Loop of `FieldFixed::_serialize_fixed`: at bit offset `i` push
`(value >> i) & 0xFF` and stop on a failed push; `fuel` counts the remaining
iterations of `for(i = 0; i < digits; i += 8)`. -/
def _serialize_fixed_loop (value : Nat) (i fuel : Nat)
    (buf : MessageBufferInterface) : Bool × MessageBufferInterface :=
  match fuel with
  | 0 => (true, buf)
  | fuel' + 1 =>
    match buf.push ((value >>> i) &&& 0xFF) with
    | (true, buf') => _serialize_fixed_loop value (i + 8) fuel' buf'
    | (false, buf') => (false, buf')

/-- Method `FieldFixed::_serialize_fixed`. -/
def _serialize_fixed (k : FieldKind) (value : Nat)
    (buf : MessageBufferInterface) : Bool × MessageBufferInterface :=
  _serialize_fixed_loop value 0 (N_BYTES_IN_FIXED k) buf

/-- Loop of `FieldFixed::_deserialize_fixed`: pop one byte per iteration and OR
it into the accumulator shifted left by the bit offset `i`; stop and fail on a
failed pop. -/
def _deserialize_fixed_loop (i fuel temp_value : Nat)
    (buf : MessageBufferInterface) : Bool × Nat × MessageBufferInterface :=
  match fuel with
  | 0 => (true, temp_value, buf)
  | fuel' + 1 =>
    match buf.pop with
    | (true, byte, buf') =>
      _deserialize_fixed_loop (i + 8) fuel' (temp_value ||| (byte <<< i)) buf'
    | (false, _, buf') => (false, temp_value, buf')

/-- Method `FieldFixed::_deserialize_fixed`: the output variable is assigned
only on success; the Nat returned here is observed by the caller only in the
success case, matching the source. -/
def _deserialize_fixed (k : FieldKind) (buf : MessageBufferInterface) :
    Bool × Nat × MessageBufferInterface :=
  _deserialize_fixed_loop 0 (N_BYTES_IN_FIXED k) 0 buf

/-- Method `FieldFixed::serialize`: elide the value when it lies in the default
window; otherwise check `serialized_size() <= buffer.get_max_size()` and on
success write the tag varint followed by the fixed payload (their push results
are discarded, as in the source); otherwise report `ERROR_BUFFER_TO_SMALL`.
`v` is the bit pattern of `_data` (the source's `*pUInt` view). -/
def serialize (k : FieldKind) (number v : Nat) (buf : MessageBufferInterface) :
    Result × MessageBufferInterface :=
  if default_window k v then (Result.OK, buf)
  else if serialized_size k number ≤ buf.get_max_size then
    (Result.OK, (_serialize_fixed k v (_serialize_varint (tag k number) buf).2).2)
  else (Result.ERROR_BUFFER_TO_SMALL, buf)

/-- Method `FieldFixed::deserialize`: fail unless
`N_BYTES_IN_FIXED <= buffer.get_size()` (the source's `&&` short-circuits, so
`_deserialize_fixed` is not called on that failure); otherwise unpack and
commit the pattern to `_data` only on success.  `old` is the stored `_data`
pattern before the call; the returned Nat is the stored pattern after it. -/
def deserialize (k : FieldKind) (old : Nat) (buf : MessageBufferInterface) :
    Result × Nat × MessageBufferInterface :=
  if N_BYTES_IN_FIXED k ≤ buf.get_size then
    match _deserialize_fixed k buf with
    | (true, d, buf') => (Result.OK, d, buf')
    | (false, _, buf') => (Result.ERROR_BUFFER_TO_SMALL, old, buf')
  else (Result.ERROR_BUFFER_TO_SMALL, old, buf)

/-- Round trip of spec §8.1: serialize the field into an empty buffer of write
capacity `cap`; the message-level driver consumes the tag bytes (out of scope
per spec §2's control flow); deserialize the remainder into a fresh field of
the same kind (stored pattern `DEFAULT_VALUE = 0`); return that field's stored
pattern. -/
def roundtrip (k : FieldKind) (number v cap : Nat) : Nat :=
  (deserialize k 0
    ⟨((serialize k number v ⟨[], cap⟩).2).bytes.drop
      (varintBytes (tag k number)).length, 0⟩).2.1

theorem varintBytesAux_ne_nil (fuel n : Nat) : varintBytesAux fuel n ≠ [] := by
  cases fuel with
  | zero => simp [varintBytesAux]
  | succ fuel' =>
    unfold varintBytesAux
    split <;> simp

theorem varintBytes_ne_nil (n : Nat) : varintBytes n ≠ [] :=
  varintBytesAux_ne_nil n n

theorem varintBytes_length_pos (n : Nat) : 0 < (varintBytes n).length :=
  List.length_pos.mpr (varintBytes_ne_nil n)

theorem leBytes_length : ∀ fuel u, (leBytes fuel u).length = fuel
  | 0, _ => rfl
  | fuel + 1, u => by simp [leBytes, leBytes_length fuel]

theorem and_255_eq_mod (n : Nat) : n &&& 255 = n % 256 := by
  have h := Nat.and_pow_two_sub_one_eq_mod n 8
  norm_num at h
  exact h

theorem pushBytes_ok : ∀ (l : List Nat) (buf : MessageBufferInterface),
    l.length ≤ buf.free →
    pushBytes l buf = (true, ⟨buf.bytes ++ l, buf.free - l.length⟩)
  | [], buf, _ => by simp [pushBytes]
  | b :: rest, buf, h => by
    have hfree : 0 < buf.free := by simp at h; omega
    have hrec := pushBytes_ok rest ⟨buf.bytes ++ [b], buf.free - 1⟩ (by simp at h ⊢; omega)
    simp only [pushBytes, MessageBufferInterface.push, if_pos hfree, hrec]
    simp
    omega

theorem ser_loop_ok : ∀ (fuel v i : Nat) (buf : MessageBufferInterface),
    fuel ≤ buf.free →
    _serialize_fixed_loop v i fuel buf =
      (true, ⟨buf.bytes ++ leBytes fuel (v >>> i), buf.free - fuel⟩)
  | 0, v, i, buf, _ => by simp [_serialize_fixed_loop, leBytes]
  | fuel + 1, v, i, buf, h => by
    have hfree : 0 < buf.free := by omega
    have hrec := ser_loop_ok fuel v (i + 8) ⟨buf.bytes ++ [(v >>> i) &&& 0xFF], buf.free - 1⟩
      (by simp; omega)
    have hbyte : (v >>> i) &&& 0xFF = (v >>> i) % 256 := and_255_eq_mod _
    have hnext : v >>> (i + 8) = (v >>> i) / 256 := by
      rw [Nat.shiftRight_add, Nat.shiftRight_eq_div_pow]
    simp only [_serialize_fixed_loop, MessageBufferInterface.push, if_pos hfree, hrec]
    simp [leBytes, hbyte, hnext]
    omega

theorem leBytes_eq_map_range : ∀ (fuel u : Nat),
    leBytes fuel u = (List.range fuel).map (fun j => (u >>> (8 * j)) &&& 0xFF)
  | 0, _ => rfl
  | fuel + 1, u => by
    rw [List.range_succ_eq_map, List.map_cons, List.map_map]
    have htail : (List.range fuel).map ((fun j => (u >>> (8 * j)) &&& 0xFF) ∘ Nat.succ)
        = (List.range fuel).map (fun j => ((u / 256) >>> (8 * j)) &&& 0xFF) := by
      apply List.map_congr_left
      intro j _
      have hdiv8 : u >>> 8 = u / 256 := by
        rw [Nat.shiftRight_eq_div_pow]
      have : u >>> (8 * Nat.succ j) = (u / 256) >>> (8 * j) := by
        rw [show 8 * Nat.succ j = 8 + 8 * j by omega, Nat.shiftRight_add, hdiv8]
      simp [this]
    rw [htail, ← leBytes_eq_map_range fuel (u / 256)]
    simp [leBytes, and_255_eq_mod]

theorem lor_shiftLeft_eq_add (a b i : Nat) (ha : a < 2 ^ i) :
    a ||| (b <<< i) = a + b * 2 ^ i := by
  rw [Nat.shiftLeft_eq]
  have h := Nat.mul_add_lt_is_or ha b
  calc a ||| b * 2 ^ i = b * 2 ^ i ||| a := Nat.lor_comm _ _
    _ = 2 ^ i * b ||| a := by rw [Nat.mul_comm]
    _ = 2 ^ i * b + a := (Nat.mul_add_lt_is_or ha b).symm
    _ = a + b * 2 ^ i := by ring

theorem deser_loop_ok : ∀ (fuel i temp u : Nat) (rest : List Nat) (free : Nat),
    u < 2 ^ (8 * fuel) → temp < 2 ^ i →
    _deserialize_fixed_loop i fuel temp ⟨leBytes fuel u ++ rest, free⟩ =
      (true, temp + u * 2 ^ i, ⟨rest, free⟩)
  | 0, i, temp, u, rest, free, hu, _ => by
    have : u = 0 := by simpa using hu
    simp [this, _deserialize_fixed_loop, leBytes]
  | fuel + 1, i, temp, u, rest, free, hu, htemp => by
    have hmod : u % 256 < 256 := Nat.mod_lt _ (by norm_num)
    have hacc : temp ||| ((u % 256) <<< i) = temp + (u % 256) * 2 ^ i :=
      lor_shiftLeft_eq_add temp (u % 256) i htemp
    have hacc_lt : temp + (u % 256) * 2 ^ i < 2 ^ (i + 8) := by
      have h1 : (u % 256) * 2 ^ i ≤ 255 * 2 ^ i :=
        Nat.mul_le_mul_right _ (by omega)
      have h2 : (2 : Nat) ^ (i + 8) = 2 ^ i * 256 := by
        rw [pow_add]; norm_num
      omega
    have hdiv : u / 256 < 2 ^ (8 * fuel) := by
      rw [Nat.div_lt_iff_lt_mul (by norm_num : (0 : Nat) < 256)]
      have : (2 : Nat) ^ (8 * (fuel + 1)) = 2 ^ (8 * fuel) * 256 := by
        rw [show 8 * (fuel + 1) = 8 * fuel + 8 by ring, pow_add]; norm_num
      omega
    have hrec := deser_loop_ok fuel (i + 8) (temp + (u % 256) * 2 ^ i) (u / 256)
      rest free hdiv hacc_lt
    simp only [leBytes, List.cons_append, _deserialize_fixed_loop,
      MessageBufferInterface.pop, hacc, hrec]
    have hpow : (2 : Nat) ^ (i + 8) = 2 ^ i * 256 := by rw [pow_add]; norm_num
    have hsum : temp + (u % 256) * 2 ^ i + u / 256 * 2 ^ (i + 8) = temp + u * 2 ^ i := by
      rw [hpow]
      calc temp + (u % 256) * 2 ^ i + u / 256 * (2 ^ i * 256)
          = temp + (u % 256 + 256 * (u / 256)) * 2 ^ i := by ring
        _ = temp + u * 2 ^ i := by rw [Nat.mod_add_div]
    rw [hsum]

theorem deser_loop_total : ∀ (fuel i temp : Nat) (buf : MessageBufferInterface),
    fuel ≤ buf.bytes.length →
    (_deserialize_fixed_loop i fuel temp buf).1 = true
  | 0, _, _, _, _ => rfl
  | fuel + 1, i, temp, buf, h => by
    match hb : buf.bytes with
    | [] => rw [hb] at h; simp at h
    | b :: rest =>
      have hrec := deser_loop_total fuel (i + 8) (temp ||| (b <<< i)) ⟨rest, buf.free⟩
        (by rw [hb] at h; simpa using h)
      simp only [_deserialize_fixed_loop, MessageBufferInterface.pop, hb, hrec]

theorem width_eq_8_mul_nbytes (k : FieldKind) : width k = 8 * N_BYTES_IN_FIXED k := by
  cases k <;> rfl

theorem nbytes_pos (k : FieldKind) : 0 < N_BYTES_IN_FIXED k := by
  cases k <;> decide

theorem serialize_success (k : FieldKind) (number v : Nat)
    (buf : MessageBufferInterface) (hw : default_window k v = false)
    (hs : serialized_size k number ≤ buf.free) :
    serialize k number v buf =
      (Result.OK,
        ⟨buf.bytes ++ varintBytes (tag k number) ++ leBytes (N_BYTES_IN_FIXED k) v,
         buf.free - serialized_size k number⟩) := by
  have hlen : (varintBytes (tag k number)).length ≤ buf.free := by
    unfold serialized_size at hs; omega
  have hpush := pushBytes_ok (varintBytes (tag k number)) buf hlen
  have hnb : N_BYTES_IN_FIXED k ≤ buf.free - (varintBytes (tag k number)).length := by
    unfold serialized_size serialized_data_size at hs; omega
  have hfixed := ser_loop_ok (N_BYTES_IN_FIXED k) v 0
    ⟨buf.bytes ++ varintBytes (tag k number), buf.free - (varintBytes (tag k number)).length⟩
    hnb
  rw [Nat.shiftRight_zero] at hfixed
  have hfree2 : buf.free - (varintBytes (tag k number)).length - N_BYTES_IN_FIXED k
      = buf.free - serialized_size k number := by
    simp only [serialized_size, serialized_data_size]
    omega
  simp only [serialize, hw, Bool.false_eq_true, if_false,
    MessageBufferInterface.get_max_size, if_pos hs, _serialize_varint, hpush,
    _serialize_fixed, hfixed]
  simp [List.append_assoc, hfree2]

theorem serialize_fail (k : FieldKind) (number v : Nat)
    (buf : MessageBufferInterface) (hw : default_window k v = false)
    (hs : buf.free < serialized_size k number) :
    serialize k number v buf = (Result.ERROR_BUFFER_TO_SMALL, buf) := by
  simp only [serialize, hw, Bool.false_eq_true, if_false,
    MessageBufferInterface.get_max_size]
  rw [if_neg (by omega)]

theorem serialize_default (k : FieldKind) (number v : Nat)
    (buf : MessageBufferInterface) (h : default_window k v = true) :
    serialize k number v buf = (Result.OK, buf) := by
  simp [serialize, h]

theorem deserialize_short (k : FieldKind) (old : Nat)
    (buf : MessageBufferInterface) (h : buf.get_size < N_BYTES_IN_FIXED k) :
    deserialize k old buf = (Result.ERROR_BUFFER_TO_SMALL, old, buf) := by
  simp only [deserialize]
  rw [if_neg (by omega)]

theorem deserialize_of_leBytes (k : FieldKind) (old v : Nat) (rest : List Nat)
    (free : Nat) (hv : v < 2 ^ width k) :
    deserialize k old ⟨leBytes (N_BYTES_IN_FIXED k) v ++ rest, free⟩ =
      (Result.OK, v, ⟨rest, free⟩) := by
  have hv' : v < 2 ^ (8 * N_BYTES_IN_FIXED k) := by
    rw [← width_eq_8_mul_nbytes]; exact hv
  have hloop := deser_loop_ok (N_BYTES_IN_FIXED k) 0 0 v rest free hv' (by norm_num)
  have hsize : N_BYTES_IN_FIXED k ≤ (leBytes (N_BYTES_IN_FIXED k) v ++ rest).length := by
    simp [leBytes_length]
  simp only [deserialize, MessageBufferInterface.get_size, if_pos hsize,
    _deserialize_fixed, hloop]
  norm_num

/-- C8: for every field kind (hence every field state, since the method reads
no mutable state), `serialized_data_size()` returns the constant payload byte
count determined by the wire width alone — 4 for 32-bit widths, 8 for 64-bit
widths — and the tag bytes are accounted separately, in `serialized_size()`. -/
theorem C8_serialized_data_size :
    ∀ k : FieldKind,
      serialized_data_size k = (if width k = 32 then 4 else 8) ∧
      ∀ number : Nat, serialized_size k number
        = (varintBytes (tag k number)).length + serialized_data_size k := by
  intro k
  exact ⟨by cases k <;> rfl, fun _ => rfl⟩

/-- C9: when the stored value lies in the default window, serialize returns
success and leaves the buffer completely unchanged for every buffer, including
one with zero remaining capacity: the elision check is evaluated before the
capacity check and the tag write. -/
theorem C9_elision_ignores_capacity :
    ∀ (k : FieldKind) (number v : Nat) (buf : MessageBufferInterface),
      default_window k v = true → serialize k number v buf = (Result.OK, buf) := by
  intro k number v buf h
  exact serialize_default k number v buf h

/-- Witness for C9: the 32-bit float field holding the `-0.0` pattern,
serialized into a buffer with zero remaining capacity. -/
theorem C9_elision_ignores_capacity_witness :
    serialize .float32 1 0x80000000 ⟨[], 0⟩ = (Result.OK, ⟨[], 0⟩) :=
  C9_elision_ignores_capacity .float32 1 0x80000000 ⟨[], 0⟩ (by decide)

/-- C10: when the buffer holds fewer bytes than the payload width, deserialize
pops no byte: the upfront size check short-circuits before the unpacking loop
runs, so the buffer — contents and size — is returned unchanged. -/
theorem C10_underrun_pops_nothing :
    ∀ (k : FieldKind) (old : Nat) (buf : MessageBufferInterface),
      buf.get_size < N_BYTES_IN_FIXED k →
      (deserialize k old buf).2.2 = buf := by
  intro k old buf h
  rw [deserialize_short k old buf h]

/-- Witness for C10: deserializing a 4-byte-wide field from a 3-byte buffer
leaves the buffer's contents and capacity untouched. -/
theorem C10_underrun_pops_nothing_witness :
    (deserialize .fixed32 7 ⟨[1, 2, 3], 5⟩).2.2 = (⟨[1, 2, 3], 5⟩ : MessageBufferInterface) :=
  C10_underrun_pops_nothing .fixed32 7 ⟨[1, 2, 3], 5⟩ (by decide)

/-- C6: a buffer holding fewer bytes than `serialized_data_size()` makes
deserialize fail with the buffer-too-small result and leaves the stored value
unchanged; moreover any failed deserialize leaves the stored value unchanged,
so no partial bytes are ever committed. -/
theorem C6_underrun_keeps_value :
    ∀ (k : FieldKind) (old : Nat) (buf : MessageBufferInterface),
      (buf.get_size < serialized_data_size k →
        deserialize k old buf = (Result.ERROR_BUFFER_TO_SMALL, old, buf)) ∧
      ((deserialize k old buf).1 = Result.ERROR_BUFFER_TO_SMALL →
        (deserialize k old buf).2.1 = old) := by
  intro k old buf
  constructor
  · intro h
    exact deserialize_short k old buf h
  · intro herr
    by_cases hsize : N_BYTES_IN_FIXED k ≤ buf.get_size
    · exfalso
      have htot : (_deserialize_fixed k buf).1 = true :=
        deser_loop_total (N_BYTES_IN_FIXED k) 0 0 buf hsize
      rcases hdes : _deserialize_fixed k buf with ⟨b, d, buf'⟩
      rw [hdes] at htot
      simp only at htot
      subst htot
      simp only [deserialize, if_pos hsize, hdes] at herr
      exact absurd herr (by simp)
    · rw [deserialize_short k old buf (by omega)]

/-- Witness for C6: a 4-byte-wide field against a buffer of exactly 3 bytes
fails with the buffer-too-small result and keeps its stored pattern 7. -/
theorem C6_underrun_keeps_value_witness :
    deserialize .fixed32 7 ⟨[1, 2, 3], 5⟩ =
      (Result.ERROR_BUFFER_TO_SMALL, 7, ⟨[1, 2, 3], 5⟩) :=
  (C6_underrun_keeps_value .fixed32 7 ⟨[1, 2, 3], 5⟩).1 (by decide)

/-- C7 counterexample: the claim asserts write-capacity and read-underrun
failures are reported as distinct discriminants, but both `serialize` and
`deserialize` report the single discriminant `Result.ERROR_BUFFER_TO_SMALL`
(the source names the same enumerator at both failure sites). -/
theorem C7_counterexample :
    (serialize .fixed32 1 1 ⟨[], 0⟩).1 = Result.ERROR_BUFFER_TO_SMALL ∧
    (deserialize .fixed32 0 ⟨[], 0⟩).1 = Result.ERROR_BUFFER_TO_SMALL ∧
    (serialize .fixed32 1 1 ⟨[], 0⟩).1 = (deserialize .fixed32 0 ⟨[], 0⟩).1 := by
  exact ⟨by decide, by decide, by decide⟩

/-- C7 (amended): every result returned by serialize or deserialize is one of
exactly the two outcome kinds success and buffer-too-small; the write-capacity
and read-underrun failures share that single discriminant. -/
theorem C7_result_kinds :
    ∀ (k : FieldKind) (number v old : Nat) (bufW bufR : MessageBufferInterface),
      ((serialize k number v bufW).1 = Result.OK ∨
        (serialize k number v bufW).1 = Result.ERROR_BUFFER_TO_SMALL) ∧
      ((deserialize k old bufR).1 = Result.OK ∨
        (deserialize k old bufR).1 = Result.ERROR_BUFFER_TO_SMALL) := by
  intro k number v old bufW bufR
  constructor
  · cases (serialize k number v bufW).1 <;> simp
  · cases (deserialize k old bufR).1 <;> simp

/-- C2: for a non-default stored value, serialize fails with the
buffer-too-small result exactly when the total size needed (tag bytes plus
`serialized_data_size()`) exceeds the buffer's remaining capacity; on that
failure no byte is written; and a value fitting the remaining capacity
serializes successfully. -/
theorem C2_capacity_boundary :
    ∀ (k : FieldKind) (number v : Nat) (buf : MessageBufferInterface),
      default_window k v = false →
      ((serialize k number v buf).1 = Result.ERROR_BUFFER_TO_SMALL ↔
        buf.get_max_size < serialized_size k number) ∧
      (serialized_size k number ≤ buf.get_max_size →
        (serialize k number v buf).1 = Result.OK) ∧
      ((serialize k number v buf).1 = Result.ERROR_BUFFER_TO_SMALL →
        (serialize k number v buf).2 = buf) := by
  intro k number v buf hw
  by_cases hs : serialized_size k number ≤ buf.free
  · have hser := serialize_success k number v buf hw hs
    refine ⟨?_, fun _ => by rw [hser], fun herr => ?_⟩
    · rw [hser]
      simp only [MessageBufferInterface.get_max_size]
      constructor
      · intro h
        exact absurd h (by simp)
      · intro h
        omega
    · rw [hser] at herr
      exact absurd herr (by simp)
  · have h' : buf.free < serialized_size k number := by omega
    have hser := serialize_fail k number v buf hw h'
    refine ⟨?_, fun hle => ?_, fun _ => by rw [hser]⟩
    · rw [hser]
      simp only [MessageBufferInterface.get_max_size]
      exact ⟨fun _ => h', fun _ => trivial⟩
    · exfalso
      simp only [MessageBufferInterface.get_max_size] at hle
      omega

/-- Witness for C2: a `fixed32` field with field number 1 needs 5 bytes (1 tag
byte plus 4 payload bytes); with remaining capacity exactly 5 it serializes
successfully, with remaining capacity 4 it fails and the buffer is unchanged. -/
theorem C2_capacity_boundary_witness :
    (serialize .fixed32 1 1 ⟨[], 5⟩).1 = Result.OK ∧
    (serialize .fixed32 1 1 ⟨[], 4⟩).1 = Result.ERROR_BUFFER_TO_SMALL ∧
    (serialize .fixed32 1 1 ⟨[], 4⟩).2 = (⟨[], 4⟩ : MessageBufferInterface) := by
  have h5 := C2_capacity_boundary .fixed32 1 1 ⟨[], 5⟩ (by decide)
  have h4 := C2_capacity_boundary .fixed32 1 1 ⟨[], 4⟩ (by decide)
  exact ⟨h5.2.1 (by decide), h4.1.mpr (by decide), h4.2.2 (h4.1.mpr (by decide))⟩

/-- C3: for a non-default stored value, once the capacity pre-check passes,
the tag varint and the full fixed-width payload are written without any push
failing, and serialize returns success with the complete tag and payload
appended; when the pre-check fails, serialize returns the buffer-too-small
result with the buffer in its pre-call state, so no partial tag or payload
bytes are ever left behind. -/
theorem C3_no_partial_write :
    ∀ (k : FieldKind) (number v : Nat) (buf : MessageBufferInterface),
      default_window k v = false →
      (serialized_size k number ≤ buf.get_max_size →
        (_serialize_varint (tag k number) buf).1 = true ∧
        (_serialize_fixed k v (_serialize_varint (tag k number) buf).2).1 = true ∧
        serialize k number v buf =
          (Result.OK,
            ⟨buf.bytes ++ varintBytes (tag k number) ++ leBytes (N_BYTES_IN_FIXED k) v,
             buf.free - serialized_size k number⟩)) ∧
      (buf.get_max_size < serialized_size k number →
        serialize k number v buf = (Result.ERROR_BUFFER_TO_SMALL, buf)) := by
  intro k number v buf hw
  constructor
  · intro hs
    have hs' : serialized_size k number ≤ buf.free := hs
    have hlen : (varintBytes (tag k number)).length ≤ buf.free := by
      simp only [serialized_size] at hs'
      omega
    have hpush := pushBytes_ok (varintBytes (tag k number)) buf hlen
    have hnb : N_BYTES_IN_FIXED k ≤ buf.free - (varintBytes (tag k number)).length := by
      simp only [serialized_size, serialized_data_size] at hs'
      omega
    have hfixed := ser_loop_ok (N_BYTES_IN_FIXED k) v 0
      ⟨buf.bytes ++ varintBytes (tag k number),
       buf.free - (varintBytes (tag k number)).length⟩ hnb
    refine ⟨?_, ?_, serialize_success k number v buf hw hs'⟩
    · simp [_serialize_varint, hpush]
    · simp [_serialize_varint, hpush, _serialize_fixed, hfixed]
  · intro hs
    exact serialize_fail k number v buf hw hs

/-- Witness for C3: serializing a `fixed32` field with value pattern 1 into a
buffer with exactly enough capacity writes tag byte 13 and the full payload. -/
theorem C3_no_partial_write_witness :
    serialize .fixed32 1 1 ⟨[], 5⟩ = (Result.OK, ⟨[13, 1, 0, 0, 0], 0⟩) ∧
    (_serialize_varint (tag .fixed32 1) ⟨[], 5⟩).1 = true := by
  have h := (C3_no_partial_write .fixed32 1 1 ⟨[], 5⟩ (by decide)).1 (by decide)
  exact ⟨h.2.2.trans (by decide), h.1⟩

/-- C5: the payload packing emits, for bit offset `8 * j` with `j` ranging over
the payload bytes, the byte `(value >>> (8 * j)) &&& 0xFF`, producing
little-endian byte order; unpacking is its mirror; in particular packing the
32-bit value `0x01020304` emits `[0x04, 0x03, 0x02, 0x01]` and unpacking that
byte sequence reproduces `0x01020304`. -/
theorem C5_little_endian :
    (∀ (k : FieldKind) (v : Nat) (buf : MessageBufferInterface),
      N_BYTES_IN_FIXED k ≤ buf.free →
      _serialize_fixed k v buf =
        (true, ⟨buf.bytes ++ (List.range (N_BYTES_IN_FIXED k)).map
          (fun j => (v >>> (8 * j)) &&& 0xFF), buf.free - N_BYTES_IN_FIXED k⟩)) ∧
    (∀ (k : FieldKind) (v : Nat) (rest : List Nat) (free : Nat),
      v < 2 ^ width k →
      _deserialize_fixed k ⟨(List.range (N_BYTES_IN_FIXED k)).map
          (fun j => (v >>> (8 * j)) &&& 0xFF) ++ rest, free⟩ =
        (true, v, ⟨rest, free⟩)) ∧
    _serialize_fixed .fixed32 0x01020304 ⟨[], 4⟩ =
      (true, ⟨[0x04, 0x03, 0x02, 0x01], 0⟩) ∧
    _deserialize_fixed .fixed32 ⟨[0x04, 0x03, 0x02, 0x01], 0⟩ =
      (true, 0x01020304, ⟨[], 0⟩) := by
  refine ⟨?_, ?_, by decide, by decide⟩
  · intro k v buf h
    have hser := ser_loop_ok (N_BYTES_IN_FIXED k) v 0 buf h
    rw [Nat.shiftRight_zero, leBytes_eq_map_range] at hser
    exact hser
  · intro k v rest free hv
    have hv' : v < 2 ^ (8 * N_BYTES_IN_FIXED k) := by
      rw [← width_eq_8_mul_nbytes]
      exact hv
    have hdes := deser_loop_ok (N_BYTES_IN_FIXED k) 0 0 v rest free hv' (by norm_num)
    rw [leBytes_eq_map_range] at hdes
    simpa [_deserialize_fixed] using hdes

/-- Witness for C5: packing and unpacking `0xCAFEBABE` as a 32-bit fixed field. -/
theorem C5_little_endian_witness :
    _serialize_fixed .fixed32 0xCAFEBABE ⟨[], 4⟩ =
      (true, ⟨[0xBE, 0xBA, 0xFE, 0xCA], 0⟩) ∧
    _deserialize_fixed .fixed32 ⟨[0xBE, 0xBA, 0xFE, 0xCA], 9⟩ =
      (true, 0xCAFEBABE, ⟨[], 9⟩) :=
  ⟨(C5_little_endian.1 .fixed32 0xCAFEBABE ⟨[], 4⟩ (by decide)).trans (by decide),
   (C5_little_endian.2.1 .fixed32 0xCAFEBABE [] 9 (by decide)).trans (by decide)⟩

/-- C4: serialize writes nothing and reports success exactly when the stored
value lies in the tolerance window `[default - epsilon, default + epsilon]` of
its semantic type; for the integer kinds the window collapses to exact
equality with zero, and for 32-bit float both `0.0` and `-0.0` (patterns
`0x00000000` and `0x80000000`) fall within the window and are elided. -/
theorem C4_default_window_elision :
    (∀ (k : FieldKind) (number v : Nat) (buf : MessageBufferInterface),
      serialize k number v buf = (Result.OK, buf) ↔ default_window k v = true) ∧
    (∀ v : Nat, v < 2 ^ 32 →
      (default_window .fixed32 v = true ↔ v = 0) ∧
      (default_window .sfixed32 v = true ↔ v = 0)) ∧
    (∀ v : Nat, v < 2 ^ 64 →
      (default_window .fixed64 v = true ↔ v = 0) ∧
      (default_window .sfixed64 v = true ↔ v = 0)) ∧
    default_window .float32 0x00000000 = true ∧
    default_window .float32 0x80000000 = true := by
  refine ⟨?_, ?_, ?_, by decide, by decide⟩
  · intro k number v buf
    constructor
    · intro h
      by_contra hw
      have hw' : default_window k v = false := by
        cases hdw : default_window k v
        · rfl
        · exact absurd hdw hw
      by_cases hs : serialized_size k number ≤ buf.free
      · rw [serialize_success k number v buf hw' hs] at h
        have hlen := congrArg (fun p => p.2.bytes.length) h
        simp only [List.length_append, leBytes_length] at hlen
        have hpos := varintBytes_length_pos (tag k number)
        omega
      · rw [serialize_fail k number v buf hw' (by omega)] at h
        exact absurd (congrArg Prod.fst h) (by simp)
    · intro h
      exact serialize_default k number v buf h
  · intro v hv
    constructor
    · simp only [default_window, data_le, default_plus_epsilon, default_minus_epsilon,
        Bool.and_eq_true, decide_eq_true_eq]
      omega
    · simp only [default_window, data_le, default_plus_epsilon, default_minus_epsilon,
        Bool.and_eq_true, decide_eq_true_eq, toInt]
      split_ifs <;> omega
  · intro v hv
    constructor
    · simp only [default_window, data_le, default_plus_epsilon, default_minus_epsilon,
        Bool.and_eq_true, decide_eq_true_eq]
      omega
    · simp only [default_window, data_le, default_plus_epsilon, default_minus_epsilon,
        Bool.and_eq_true, decide_eq_true_eq, toInt]
      split_ifs <;> omega

/-- Witness for C4: the window collapse instantiated at `sfixed32` pattern
`0xFFFFFFFF` (the value -1, non-default), and the exactly-when equivalence
instantiated at a default-valued `fixed32` field against an empty buffer. -/
theorem C4_default_window_elision_witness :
    (default_window .sfixed32 0xFFFFFFFF = true ↔ (0xFFFFFFFF : Nat) = 0) ∧
    (serialize .fixed32 1 0 ⟨[], 0⟩ = (Result.OK, ⟨[], 0⟩) ↔
      default_window .fixed32 0 = true) :=
  ⟨(C4_default_window_elision.2.1 0xFFFFFFFF (by decide)).2,
   C4_default_window_elision.1 .fixed32 1 0 ⟨[], 0⟩⟩

/-- C1 counterexample: the 32-bit float pattern `0x80000000` (`-0.0`) is a
representable value whose field serializes into a large empty buffer by
writing nothing (it lies in the default window), so deserializing that buffer
into a fresh field leaves the fresh field's pattern at `0x00000000`, which is
not bit-for-bit equal to `-0.0`'s pattern. -/
theorem C1_counterexample :
    serialize .float32 1 0x80000000 ⟨[], 100⟩ = (Result.OK, ⟨[], 100⟩) ∧
    roundtrip .float32 1 0x80000000 100 = 0x00000000 ∧
    (0x00000000 : Nat) ≠ 0x80000000 := by
  exact ⟨by decide, by decide, by decide⟩

/-- C1 (amended): for every representable value outside the default-elision
window, serializing into a sufficiently large empty buffer and deserializing
the result (after the driver consumes the tag) into a fresh field reproduces
the value bit-for-bit; values inside the window — for the integer kinds only
the default itself, for the float kinds also patterns such as `-0.0` — are
elided and round-trip to the fresh field's default pattern 0 instead. -/
theorem C1_roundtrip_amended :
    (∀ (k : FieldKind) (number v cap : Nat), v < 2 ^ width k →
      default_window k v = false → serialized_size k number ≤ cap →
      roundtrip k number v cap = v) ∧
    (∀ (k : FieldKind) (number v cap : Nat), default_window k v = true →
      roundtrip k number v cap = 0) := by
  constructor
  · intro k number v cap hv hw hcap
    unfold roundtrip
    rw [serialize_success k number v ⟨[], cap⟩ hw hcap]
    simp only [List.nil_append]
    rw [List.drop_left]
    have hd := deserialize_of_leBytes k 0 v [] 0 hv
    rw [List.append_nil] at hd
    rw [hd]
  · intro k number v cap h
    unfold roundtrip
    rw [serialize_default k number v ⟨[], cap⟩ h]
    simp only [List.drop_nil]
    rw [deserialize_short k 0 ⟨[], 0⟩
      (by simpa [MessageBufferInterface.get_size] using nbytes_pos k)]

/-- Witness for C1: the `sfixed32` pattern of -1 round-trips bit-for-bit, and
the elided `-0.0` float pattern round-trips to 0. -/
theorem C1_roundtrip_amended_witness :
    roundtrip .sfixed32 1 0xFFFFFFFF 100 = 0xFFFFFFFF ∧
    roundtrip .float32 1 0x80000000 100 = 0 :=
  ⟨C1_roundtrip_amended.1 .sfixed32 1 0xFFFFFFFF 100 (by decide) (by decide) (by decide),
   C1_roundtrip_amended.2 .float32 1 0x80000000 100 (by decide)⟩

end EmbeddedProto
